import Mathlib

/-!
Shallow embedding of the throughput-measurement core of `attract.c`
(client and server of the AT Computing traffic tool), together with
proofs about the claims of its specification.

Conventions of the embedding:
* C strings are `List Char`; reading from a socket is modelled by the
  byte/packet sequence the peer delivers.
* C machine integers are `Nat`/`Int`; the one place where a conversion
  to `unsigned int` matters (the `-c` flag, `mesnum`) takes the value
  modulo `2 ^ 32` explicitly.
* Unbounded C loops (`for(;;)`, trial-binding) are given explicit fuel;
  a `none` result means the fuel ran out, i.e. models non-termination
  within the modelled horizon.
-/

namespace Attract

/-- `isspace` of the C locale: the whitespace set used by `sscanf`
conversions and by literal blanks in a scan format. -/
def isSpaceChar (c : Char) : Bool :=
  c = ' ' || c = '\t' || c = '\n' || c = '\x0b' || c = '\x0c' || c = '\r'

/-- Skip the maximal whitespace prefix, as a blank in a `sscanf` format
(and the `%lld` conversion itself) does. -/
def skipWs : List Char → List Char
  | [] => []
  | c :: r => if isSpaceChar c then skipWs r else c :: r

/-- The `%c` conversion of `sscanf`: consume exactly one character, with
no whitespace skipping; fails on empty input. -/
def scanChar : List Char → Option (Char × List Char)
  | [] => none
  | c :: r => some (c, r)

/-- Consume the maximal digit prefix, accumulating the decimal value, as
the digit phase of the `%d`/`%lld` conversions does. -/
def scanDigits : List Char → Nat → Nat × List Char
  | [], acc => (acc, [])
  | c :: r, acc =>
      if c.isDigit then scanDigits r (acc * 10 + (c.toNat - 48)) else (acc, c :: r)

/-- The `%lld` conversion of `sscanf`: skip whitespace, optional sign,
then at least one digit (maximal munch); fails when no digit follows. -/
def scanLLD (s : List Char) : Option (Int × List Char) :=
  match skipWs s with
  | [] => none
  | c :: r =>
    if c = '-' then
      match r with
      | [] => none
      | d :: _ =>
        if d.isDigit then
          some (-((scanDigits r 0).1 : Int), (scanDigits r 0).2)
        else none
    else if c = '+' then
      match r with
      | [] => none
      | d :: _ =>
        if d.isDigit then
          some (((scanDigits r 0).1 : Int), (scanDigits r 0).2)
        else none
    else if c.isDigit then
      some (((scanDigits (c :: r) 0).1 : Int), (scanDigits (c :: r) 0).2)
    else none

/-- The decimal digit character for `d < 10`, as `printf` emits it. -/
def digitChar (d : Nat) : Char := Char.ofNat (48 + d)

/-- The decimal rendering of a nonnegative integer by `printf` (`%d`,
`%lld`): most-significant digit first, `"0"` for zero. -/
def natToChars (n : Nat) : List Char :=
  if n = 0 then ['0'] else ((Nat.digits 10 n).reverse).map digitChar

/-- Client handshake line, `sprintf(buf, "%c %c %c %d\n", ipvers, prot,
direct, meslen)` (attract.c line 288). -/
def ctlEncode (ipvers prot direct : Char) (meslen : Nat) : List Char :=
  ipvers :: ' ' :: prot :: ' ' :: direct :: ' ' :: (natToChars meslen ++ ['\n'])

/-- Server handshake parse, `sscanf(ctlinfo, "%c %c %c %lld", &ipvers,
&prot, &direct, &targetlen)` (attract.c line 703): the value of the four
fields when all four conversions succeed. -/
def ctlScan (s : List Char) : Option (Char × Char × Char × Int) :=
  match scanChar s with
  | none => none
  | some (a, s1) =>
    match scanChar (skipWs s1) with
    | none => none
    | some (b, s2) =>
      match scanChar (skipWs s2) with
      | none => none
      | some (d, s3) =>
        match scanLLD s3 with
        | none => none
        | some (n, _) => some (a, b, d, n)

/-- The return value of the same `sscanf` call: how many of the four
conversions succeeded (assignments performed before the first failure). -/
def ctlScanCount (s : List Char) : Nat :=
  match scanChar s with
  | none => 0
  | some (_, s1) =>
    match scanChar (skipWs s1) with
    | none => 1
    | some (_, s2) =>
      match scanChar (skipWs s2) with
      | none => 2
      | some (_, s3) =>
        match scanLLD s3 with
        | none => 3
        | some _ => 4

/-- Whether the per-connection handler aborts at the control read:
`if (read(tcpsock, ctlinfo, sizeof(ctlinfo)) <= 0) { close; exit(1); }`
(attract.c lines 691-694), the read's return value modelled as the
number of delivered bytes.  The result of the subsequent `sscanf`
(line 703) is not inspected by the handler. -/
def handleconAborts (msg : List Char) : Bool := msg.isEmpty

/-- C `atoi`: skip whitespace, optional sign, then the maximal digit
run (an empty run yields 0). -/
def atoiInt (s : List Char) : Int :=
  match skipWs s with
  | '-' :: r => -(((scanDigits r 0).1 : Int))
  | '+' :: r => (((scanDigits r 0).1 : Int))
  | s1 => (((scanDigits s1 0).1 : Int))

/-- The `-c` flag handler (attract.c lines 208-213):
`if ( (mesnum = atoi(optarg)) <= 0 )` — `mesnum` is an `unsigned int`,
so the assigned value is the argument modulo `2 ^ 32` and the `<= 0`
test on the unsigned result only catches zero.  `none` models
"Wrong value for count" followed by `exit(1)`. -/
def setMesnum (arg : List Char) : Option Nat :=
  if (((atoiInt arg) % (2 ^ 32 : Int)).toNat) ≤ 0 then none
  else some (((atoiInt arg) % (2 ^ 32 : Int)).toNat)

/-- First bytes of the packets sent by the client's count-based
transfer loop (attract.c lines 327-364, `mesnum != 0` branch, TCP
unidirectional): `cnt` is incremented at the top, the EOT marker `'E'`
is written into `buf[0]` when `cnt == mesnum` (and the loop stops after
this send), and `buf[0]` — initially `'X'` from the `memset` at line
318 — is transmitted by `putmes`.  Fuel bounds the iterations. -/
def clientLoopC (N : Nat) : Nat → Nat → Char → List Char
  | 0, _, _ => []
  | fuel + 1, cnt, b0 =>
      if cnt + 1 = N then ['E'] else b0 :: clientLoopC N fuel (cnt + 1) b0

/-- The packet first-bytes of a whole count-based client run with
`-c N`: `cnt` starts at 0 and `N` iterations suffice. -/
def clientPackets (N : Nat) : List Char := clientLoopC N N 0 'X'

/-- The server handler's receive loop (attract.c lines 773-797) in TCP
unidirectional mode, over the sequence of packet first-bytes the client
sent: TCP `getmes` returns 0 (never a timeout), each packet increments
`numrcv`, and a first byte equal to the EOT marker `'E'` breaks the
loop after the increment. -/
def serverLoop : List Char → Nat → Nat
  | [], numrcv => numrcv
  | b :: rest, numrcv =>
      if b = 'E' then numrcv + 1 else serverLoop rest (numrcv + 1)

/-- The client's time-based transfer loop (attract.c lines 327-345,
`mesnum == 0` branch, unidirectional): `clock c` models the outcome of
`times(&endtms) >= endtime` at the iteration whose counter is `c`; by
the short-circuit of `&&`, the clock is consulted only when
`cnt & 0x1f == 0`.  Returns the counter of the iteration that sends
the `'E'`-marked packet and exits, or `none` when the fuel runs out
with the loop still running. -/
def timeLoop (clock : Nat → Bool) : Nat → Nat → Option Nat
  | 0, _ => none
  | fuel + 1, cnt =>
      if (cnt + 1) &&& 31 = 0 then
        if clock (cnt + 1) then some (cnt + 1) else timeLoop clock fuel (cnt + 1)
      else timeLoop clock fuel (cnt + 1)

/-- The client's effective elapsed-ticks computation (attract.c lines
390-393): `realticks = times(&endtms) - begtime - (numtout * localhz);
if (realticks == 0) realticks = 1;`. -/
def realticksAdj (endt begt numtout localhz : Int) : Int :=
  if endt - begt - numtout * localhz = 0 then 1
  else endt - begt - numtout * localhz

/-- The throughput figure printed by the client (attract.c lines
414-415 and 429-430):
`(((numrcv * meslen * factor) / realticks) * localhz) / 1024`,
in C `long long` integer arithmetic (all operands nonnegative). -/
def throughputKiB (numrcv meslen factor realticks localhz : Nat) : Nat :=
  numrcv * meslen * factor / realticks * localhz / 1024

/-- Modelled from the spec (for comparison only): the throughput
formula as the specification states it, "received-count × packet-length
× direction-factor × tick-rate / real-ticks / 1024". -/
def throughputSpecFormula (numrcv meslen factor realticks localhz : Nat) : Nat :=
  numrcv * meslen * factor * localhz / realticks / 1024

/-- The TCP receive of `getmes` (attract.c lines 874-887): read until
exactly `len` bytes have been consumed; a read returning `<= 0`
(modelled as a 0 entry of `reads`) executes `close(tcpsock); exit(0)`.
The result is the exit code when the loop terminates the process,
`none` when the packet is read completely (or the modelled reads are
exhausted while the loop blocks). -/
def getmesTcpExit : List Nat → Nat → Option Nat
  | _, 0 => none
  | [], _ + 1 => none
  | r :: rest, len + 1 =>
      if r = 0 then some 0 else getmesTcpExit rest (len + 1 - r)

/-- The client's final statistics read (attract.c lines 377-384):
`if ( (len = read(tcpsock, buf, sizeof(buf))) <= 0)` — both the
timeout/EOF branch ("No response from server") and the `perror`
branch call `exit(1)`.  `n` is the read's return value. -/
def statsReadExit (n : Int) : Option Nat :=
  if n ≤ 0 then some 1 else none

/-- Outcome of one candidate port in the server's UDP trial-binding
loop: `getaddrinfo`, `socket` and `bind` can each fail. -/
structure PortEnv where
  resolveOk : Nat → Bool
  socketOk : Nat → Bool
  bindOk : Nat → Bool

/-- The server's UDP trial-and-error binding loop (attract.c lines
727-751): `for (udpport=atoi(myport); ; udpport++)` — a failed
`getaddrinfo` or `socket` call `continue`s to the next port, a
successful `bind` breaks with the current port.  Fuel bounds the
number of candidates tried. -/
def findPort (env : PortEnv) : Nat → Nat → Option Nat
  | 0, _ => none
  | fuel + 1, p =>
      if env.resolveOk p then
        if env.socketOk p then
          if env.bindOk p then some p else findPort env fuel (p + 1)
        else findPort env fuel (p + 1)
      else findPort env fuel (p + 1)

/-- Server side of the final statistics message,
`sprintf(buf, "%lld %lld %ld", numrcv, numtout*UDPTOUT, cpuserv)`
(attract.c line 816); `st` stands for the already multiplied
`numtout*UDPTOUT` figure. -/
def statsEncode (numrcv st cpuserv : Nat) : List Char :=
  natToChars numrcv ++ ' ' :: (natToChars st ++ ' ' :: natToChars cpuserv)

/-- The value held by the client's global `numtout` after
`sscanf(buf, "%lld %lld %ld", &numrcv, &numtout, &hogserv)`
(attract.c line 385): `numtout` is overwritten exactly when the first
two conversions succeed; otherwise it keeps the client-side count
accumulated during the transfer loop. -/
def numtoutAfterStats (clientTout : Int) (msg : List Char) : Int :=
  match scanLLD msg with
  | none => clientTout
  | some (_, s1) =>
    match scanLLD s1 with
    | none => clientTout
    | some (b, _) => b

/-- The `realticks` value the client's statistics divisions use
(attract.c lines 385-393), starting from the client's own accumulated
`numtout` and the raw statistics message received from the server. -/
def clientRealticks (endt begt : Int) (clientTout : Int) (msg : List Char)
    (localhz : Int) : Int :=
  realticksAdj endt begt (numtoutAfterStats clientTout msg) localhz

/- ### Digit round-trip lemmas -/

theorem digitChar_isDigit {d : Nat} (hd : d < 10) : (digitChar d).isDigit = true := by
  interval_cases d <;> decide

theorem digitChar_toNat {d : Nat} (hd : d < 10) : (digitChar d).toNat - 48 = d := by
  interval_cases d <;> decide

theorem digitChar_not_space {d : Nat} (hd : d < 10) : isSpaceChar (digitChar d) = false := by
  interval_cases d <;> decide

theorem digitChar_ne_minus {d : Nat} (hd : d < 10) : digitChar d ≠ '-' := by
  interval_cases d <;> decide

theorem digitChar_ne_plus {d : Nat} (hd : d < 10) : digitChar d ≠ '+' := by
  interval_cases d <;> decide

/-- `skipWs` is the identity on a string that does not start with
whitespace. -/
theorem skipWs_no_ws : ∀ (s : List Char),
    (∀ c, s.head? = some c → isSpaceChar c = false) → skipWs s = s := by
  intro s h
  match s with
  | [] => rfl
  | c :: r =>
    have := h c rfl
    simp [skipWs, this]

/-- Reading digits left to right folds the digit list onto the
accumulator; a non-digit (or the end) stops the scan. -/
theorem scanDigits_append (ds : List Nat) :
    ∀ (acc : Nat) (rest : List Char),
    (∀ d ∈ ds, d < 10) →
    (∀ c, rest.head? = some c → c.isDigit = false) →
    scanDigits (ds.map digitChar ++ rest) acc =
      (ds.foldl (fun a d => a * 10 + d) acc, rest) := by
  induction ds with
  | nil =>
    intro acc rest _ hrest
    match rest with
    | [] => rfl
    | c :: r =>
      have := hrest c rfl
      simp [scanDigits, this]
  | cons d ds ih =>
    intro acc rest hds hrest
    have hd : d < 10 := hds d (List.mem_cons_self d ds)
    have h1 := digitChar_isDigit hd
    have h2 := digitChar_toNat hd
    simp only [List.map_cons, List.cons_append, scanDigits, h1, if_true, h2,
      List.foldl_cons]
    exact ih _ rest (fun x hx => hds x (List.mem_cons_of_mem d hx)) hrest

/-- Folding the reversed little-endian digit list recovers the value. -/
theorem foldl_reverse_digits (L : List Nat) :
    ∀ acc : Nat, L.reverse.foldl (fun a d => a * 10 + d) acc =
      acc * 10 ^ L.length + Nat.ofDigits 10 L := by
  induction L with
  | nil => intro acc; simp [Nat.ofDigits]
  | cons x L ih =>
    intro acc
    simp only [List.reverse_cons, List.foldl_append, List.foldl_cons, List.foldl_nil, ih,
      Nat.ofDigits_cons, List.length_cons]
    ring

/-- Every character of `natToChars n` is a decimal digit. -/
theorem natToChars_digits {n : Nat} : ∀ c ∈ natToChars n, c.isDigit = true := by
  intro c hc
  unfold natToChars at hc
  by_cases h : n = 0
  · simp [h] at hc
    simp [hc]
  · simp [h] at hc
    obtain ⟨d, hd, rfl⟩ := hc
    exact digitChar_isDigit (Nat.digits_lt_base (by norm_num) hd)

/-- `natToChars` never produces the empty string. -/
theorem natToChars_ne_nil {n : Nat} : natToChars n ≠ [] := by
  unfold natToChars
  by_cases h : n = 0
  · simp [h]
  · simp [h, Nat.digits_ne_nil_iff_ne_zero.mpr h]

/-- Scanning the printed decimal digits of `n` followed by a non-digit
(or the end) recovers `n` exactly. -/
theorem scanDigits_natToChars (n : Nat) (rest : List Char)
    (hrest : ∀ c, rest.head? = some c → c.isDigit = false) :
    scanDigits (natToChars n ++ rest) 0 = (n, rest) := by
  unfold natToChars
  by_cases h : n = 0
  · subst h
    simp only [if_true]
    match rest with
    | [] => decide
    | c :: r =>
      have := hrest c rfl
      simp [scanDigits, this]
  · simp only [h, if_false]
    rw [scanDigits_append _ 0 rest
      (fun d hd => Nat.digits_lt_base (by norm_num)
        (List.mem_reverse.mp hd)) hrest]
    rw [foldl_reverse_digits, Nat.ofDigits_digits]
    simp

/-- The `%lld` conversion applied to the printed decimal of `n` followed
by a non-digit terminator yields exactly `n`. -/
theorem scanLLD_natToChars (n : Nat) (rest : List Char)
    (hrest : ∀ c, rest.head? = some c → c.isDigit = false) :
    scanLLD (natToChars n ++ rest) = some ((n : Int), rest) := by
  obtain ⟨c, cs, hcons⟩ : ∃ c cs, natToChars n = c :: cs := by
    match hnc : natToChars n with
    | [] => exact absurd hnc natToChars_ne_nil
    | c :: cs => exact ⟨c, cs, rfl⟩
  have hcdig : c.isDigit = true := natToChars_digits c (by rw [hcons]; exact List.mem_cons_self c cs)
  have hcns : isSpaceChar c = false := by
    revert hcdig
    unfold Char.isDigit isSpaceChar
    intro h
    simp only [Bool.or_eq_false_iff, decide_eq_false_iff_not]
    refine ⟨⟨⟨⟨⟨?_, ?_⟩, ?_⟩, ?_⟩, ?_⟩, ?_⟩ <;>
      (rintro rfl; revert h; decide)
  have hcnm : c ≠ '-' := by
    intro hda; rw [hda] at hcdig; revert hcdig; decide
  have hcnp : c ≠ '+' := by
    intro hda; rw [hda] at hcdig; revert hcdig; decide
  have hskip : skipWs (natToChars n ++ rest) = natToChars n ++ rest := by
    apply skipWs_no_ws
    intro x hx
    rw [hcons] at hx
    simp only [List.cons_append, List.head?_cons, Option.some.injEq] at hx
    rw [← hx]; exact hcns
  have hscan := scanDigits_natToChars n rest hrest
  unfold scanLLD
  rw [hskip, hcons]
  simp only [List.cons_append, hcnm, hcnp, if_false, hcdig, if_true]
  rw [← List.cons_append, ← hcons, hscan]

theorem skipWs_cons_space (s : List Char) : skipWs (' ' :: s) = skipWs s := by
  simp [skipWs, isSpaceChar]

theorem scanLLD_cons_space (s : List Char) : scanLLD (' ' :: s) = scanLLD s := by
  unfold scanLLD
  rw [skipWs_cons_space]

/-- C2: encoding the Control message with the client's
`"%c %c %c %d\n"` format and parsing it with the server's
`"%c %c %c %lld"` format recovers exactly the original
(ipver, proto, dir, len) tuple, for every ipver in {'4','6'}, proto in
{'t','u'}, dir in {'u','b'} and packet length 1..65636. -/
theorem ctl_handshake_roundtrip (a b d : Char) (n : Nat)
    (_ha : a = '4' ∨ a = '6') (hb : b = 't' ∨ b = 'u') (hd : d = 'u' ∨ d = 'b')
    (_hn1 : 1 ≤ n) (_hn2 : n ≤ 65636) :
    ctlScan (ctlEncode a b d n) = some (a, b, d, (n : Int)) := by
  have hbns : isSpaceChar b = false := by rcases hb with rfl | rfl <;> decide
  have hdns : isSpaceChar d = false := by rcases hd with rfl | rfl <;> decide
  have e1 : skipWs (' ' :: b :: ' ' :: d :: ' ' :: (natToChars n ++ ['\n'])) =
      b :: ' ' :: d :: ' ' :: (natToChars n ++ ['\n']) := by
    rw [skipWs_cons_space]
    exact skipWs_no_ws _ (by
      intro c hc
      simp only [List.head?_cons, Option.some.injEq] at hc
      rw [← hc]; exact hbns)
  have e2 : skipWs (' ' :: d :: ' ' :: (natToChars n ++ ['\n'])) =
      d :: ' ' :: (natToChars n ++ ['\n']) := by
    rw [skipWs_cons_space]
    exact skipWs_no_ws _ (by
      intro c hc
      simp only [List.head?_cons, Option.some.injEq] at hc
      rw [← hc]; exact hdns)
  have e3 : scanLLD (' ' :: (natToChars n ++ ['\n'])) = some ((n : Int), ['\n']) := by
    rw [scanLLD_cons_space]
    exact scanLLD_natToChars n ['\n'] (by
      intro c hc
      simp only [List.head?_cons, Option.some.injEq] at hc
      rw [← hc]; decide)
  unfold ctlEncode ctlScan
  simp only [scanChar, e1, e2, e3]

theorem ctl_handshake_roundtrip_witness :
    ctlScan (ctlEncode '6' 't' 'u' 512) = some ('6', 't', 'u', ((512 : Nat) : Int)) :=
  ctl_handshake_roundtrip '6' 't' 'u' 512 (Or.inr rfl) (Or.inl rfl) (Or.inl rfl)
    (by decide) (by decide)

/-- C4 counterexample: the control message `"x\n"` does not parse into
four fields (the `sscanf` assigns only 1), yet the handler does not
abort — the parse result is never checked, only the read's byte count
is. -/
theorem handlecon_no_parse_abort :
    ctlScanCount ['x', '\n'] < 4 ∧ handleconAborts ['x', '\n'] = false := by
  decide

/-- C4 amended: the per-connection handler aborts only when the
control-channel read delivers no data; every nonempty control message,
whether or not it parses into four fields, proceeds past the handshake
parse unchecked. -/
theorem handlecon_aborts_only_on_empty_read (msg : List Char) (h : msg ≠ []) :
    handleconAborts msg = false := by
  simp [handleconAborts, h]

theorem handlecon_aborts_only_on_empty_read_witness :
    handleconAborts ['x', '\n'] = false :=
  handlecon_aborts_only_on_empty_read ['x', '\n'] (by decide)

/-- C6: the client accepts `-c -5` instead of rejecting it: `atoi`
yields -5, the assignment to the `unsigned int` `mesnum` wraps it to
2^32 - 5, and the `<= 0` test on the unsigned value cannot fire — no
"Wrong value for count" diagnostic, no exit, and the transfer would
proceed with packet count 4294967291 (code bug: the `<= 0` test shows
the intent to reject non-positive counts). -/
theorem setMesnum_accepts_negative :
    setMesnum ['-', '5'] = some 4294967291 := by decide

/-- The count-based client loop, started below `N`, emits `'X'` bytes
until the counter reaches `N` and then one final `'E'`. -/
theorem clientLoopC_replicate (N : Nat) :
    ∀ (fuel cnt : Nat), cnt < N → N ≤ cnt + fuel →
    clientLoopC N fuel cnt 'X' = List.replicate (N - cnt - 1) 'X' ++ ['E'] := by
  intro fuel
  induction fuel with
  | zero => intro cnt h1 h2; omega
  | succ f ih =>
    intro cnt h1 h2
    by_cases hc : cnt + 1 = N
    · have hz : N - cnt - 1 = 0 := by omega
      simp [clientLoopC, hc, hz]
    · have h1e : cnt + 1 < N := by omega
      have h2e : N ≤ cnt + 1 + f := by omega
      simp only [clientLoopC, hc, if_false]
      rw [ih (cnt + 1) h1e h2e]
      have hs : N - cnt - 1 = (N - (cnt + 1) - 1) + 1 := by omega
      rw [hs, List.replicate_succ, List.cons_append]

/-- The server handler counts one packet per received first byte and
stops right after the `'E'` marker. -/
theorem serverLoop_replicate (k : Nat) :
    ∀ n : Nat, serverLoop (List.replicate k 'X' ++ ['E']) n = n + k + 1 := by
  induction k with
  | zero => intro n; simp [serverLoop]
  | succ k ih =>
    intro n
    simp only [List.replicate_succ, List.cons_append, serverLoop, List.append_eq]
    rw [if_neg (by decide), ih]
    omega

/-- C1: with `-c N` (N ≥ 1) over TCP unidirectional the client loop
runs exactly N iterations sending one packet each, only the N-th packet
carries the end-of-transfer marker `'E'` (all earlier ones carry `'X'`),
and the server handler receiving those N packets in order leaves its
loop with its received counter at exactly N. -/
theorem client_count_transfer (N : Nat) (hN : 1 ≤ N) :
    (clientPackets N).length = N ∧
    clientPackets N = List.replicate (N - 1) 'X' ++ ['E'] ∧
    serverLoop (clientPackets N) 0 = N := by
  have hrep : clientPackets N = List.replicate (N - 1) 'X' ++ ['E'] := by
    unfold clientPackets
    have h := clientLoopC_replicate N N 0 (by omega) (by omega)
    simpa using h
  refine ⟨?_, hrep, ?_⟩
  · rw [hrep]; simp; omega
  · rw [hrep, serverLoop_replicate]; omega

theorem client_count_transfer_witness :
    (clientPackets 100).length = 100 ∧
    clientPackets 100 = List.replicate 99 'X' ++ ['E'] ∧
    serverLoop (clientPackets 100) 0 = 100 :=
  client_count_transfer 100 (by decide)

theorem and31_eq_mod32 (x : Nat) : x &&& 31 = x % 32 := by
  have h := Nat.and_pow_two_sub_one_eq_mod x 5
  simpa using h

/-- If the time-based loop exits, the exit iteration's counter passed
the `cnt & 0x1f == 0` gate. -/
theorem timeLoop_exit_mod (clock : Nat → Bool) :
    ∀ (fuel cnt c : Nat), timeLoop clock fuel cnt = some c → c % 32 = 0 := by
  intro fuel
  induction fuel with
  | zero => intro cnt c h; simp [timeLoop] at h
  | succ f ih =>
    intro cnt c h
    simp only [timeLoop] at h
    by_cases hm : (cnt + 1) &&& 31 = 0
    · rw [if_pos hm] at h
      by_cases hcl : clock (cnt + 1) = true
      · rw [if_pos hcl] at h
        cases h
        rw [← and31_eq_mod32]
        exact hm
      · rw [if_neg hcl] at h
        exact ih _ _ h
    · rw [if_neg hm] at h
      exact ih _ _ h

/-- The clock is consulted only on iterations whose counter is a
multiple of 32: two clocks agreeing there make the loop
indistinguishable. -/
theorem timeLoop_clock_agree (clock1 clock2 : Nat → Bool)
    (hagree : ∀ n, n % 32 = 0 → clock1 n = clock2 n) :
    ∀ (fuel cnt : Nat), timeLoop clock1 fuel cnt = timeLoop clock2 fuel cnt := by
  intro fuel
  induction fuel with
  | zero => intro cnt; rfl
  | succ f ih =>
    intro cnt
    simp only [timeLoop]
    by_cases hm : (cnt + 1) &&& 31 = 0
    · have hmod : (cnt + 1) % 32 = 0 := by rw [← and31_eq_mod32]; exact hm
      rw [if_pos hm, if_pos hm, hagree (cnt + 1) hmod]
      by_cases hcl : clock2 (cnt + 1) = true
      · rw [if_pos hcl, if_pos hcl]
      · rw [if_neg hcl, if_neg hcl, ih]
    · rw [if_neg hm, if_neg hm, ih]

/-- C9: in time-based mode the elapsed-time condition is evaluated only
on iterations whose packet counter is a multiple of 32 (the loop result
does not depend on the clock anywhere else), and the loop can exit —
sending the marked packet — only on such an iteration. -/
theorem timeLoop_checks_every_32 :
    (∀ (clock : Nat → Bool) (fuel cnt c : Nat),
      timeLoop clock fuel cnt = some c → c % 32 = 0) ∧
    (∀ (clock1 clock2 : Nat → Bool),
      (∀ n, n % 32 = 0 → clock1 n = clock2 n) →
      ∀ (fuel cnt : Nat), timeLoop clock1 fuel cnt = timeLoop clock2 fuel cnt) :=
  ⟨timeLoop_exit_mod, timeLoop_clock_agree⟩

theorem timeLoop_checks_every_32_witness :
    (32 : Nat) % 32 = 0 ∧
    timeLoop (fun _ => true) 40 0 =
      timeLoop (fun n => decide (n % 32 = 0)) 40 0 :=
  ⟨timeLoop_checks_every_32.1 (fun _ => true) 40 0 32 (by decide),
   timeLoop_checks_every_32.2 (fun _ => true) (fun n => decide (n % 32 = 0))
     (fun n hn => by simp [hn]) 40 0⟩

/-- C3 counterexample: the claimed flooring to at least 1 does not
happen for negative values — with end tick 0, start tick 0, one server
timeout and tick-rate 100 the divisor used is -100, not ≥ 1. -/
theorem realticks_can_be_negative : realticksAdj 0 0 1 100 < 1 := by decide

/-- C3 amended: the adjustment replaces only an exactly-zero tick count
by 1; the divisor is therefore never 0, and it is ≥ 1 exactly when the
raw difference (end - start - timeouts × rate) is nonnegative. A
negative raw difference is used unchanged as the divisor. -/
theorem realticksAdj_spec (endt begt numtout localhz : Int) :
    realticksAdj endt begt numtout localhz ≠ 0 ∧
    (0 ≤ endt - begt - numtout * localhz →
      1 ≤ realticksAdj endt begt numtout localhz) := by
  have key : ∀ r : Int,
      (if r = 0 then (1 : Int) else r) ≠ 0 ∧
      (0 ≤ r → 1 ≤ (if r = 0 then (1 : Int) else r)) := by
    intro r
    by_cases h : r = 0
    · subst h; norm_num
    · rw [if_neg h]
      exact ⟨h, fun h0 => by omega⟩
  unfold realticksAdj
  exact key _

theorem realticksAdj_spec_witness :
    realticksAdj 500 0 0 100 ≠ 0 ∧ 1 ≤ realticksAdj 500 0 0 100 :=
  ⟨(realticksAdj_spec 500 0 0 100).1, (realticksAdj_spec 500 0 0 100).2 (by decide)⟩

/-- C7 counterexample: at received=10250, length=1, factor=1,
tick-rate=100, real-ticks=1000 the code reports 0 KiB/s while the
claimed formula (received × length × factor × tick-rate / real-ticks
/ 1024) gives 1 — the code divides by real-ticks before multiplying by
the tick-rate. -/
theorem throughput_formula_differs :
    throughputKiB 10250 1 1 1000 100 = 0 ∧
    throughputSpecFormula 10250 1 1 1000 100 = 1 ∧
    throughputKiB 10250 1 1 1000 100 ≠
      throughputSpecFormula 10250 1 1 1000 100 := by decide

/-- C7 amended: the reported throughput is
((received × length × factor) / real-ticks) × tick-rate / 1024, with
the integer division by real-ticks performed before the tick-rate
multiplication; it never exceeds the claimed formula, and at the spec's
example (received=1000, length=512, factor=1, tick-rate=100,
real-ticks=500) both equal 100. -/
theorem throughputKiB_le_spec :
    (∀ numrcv meslen factor realticks localhz : Nat,
      throughputKiB numrcv meslen factor realticks localhz ≤
        throughputSpecFormula numrcv meslen factor realticks localhz) ∧
    throughputKiB 1000 512 1 500 100 = 100 ∧
    throughputSpecFormula 1000 512 1 500 100 = 100 := by
  refine ⟨?_, by decide, by decide⟩
  intro r m f rt hz
  unfold throughputKiB throughputSpecFormula
  apply Nat.div_le_div_right
  rcases Nat.eq_zero_or_pos rt with h | h
  · subst h; simp
  · rw [Nat.le_div_iff_mul_le h]
    calc r * m * f / rt * hz * rt = r * m * f / rt * rt * hz := by ring
    _ ≤ r * m * f * hz :=
        Nat.mul_le_mul_right hz (Nat.div_mul_le_self _ _)

/-- C5 counterexample: a zero-byte (or failed) read on the TCP data
channel inside `getmes` terminates the process with exit code 0, not 1
— `exit(0)` at attract.c line 882. -/
theorem getmesTcp_zero_read_exit_zero :
    getmesTcpExit [0] 512 = some 0 ∧ (0 : Nat) ≠ 1 := by decide

/-- C5 amended: a zero-byte or failed read on the TCP data channel
during the transfer loop terminates the process with exit code 0 (the
shared `getmes` calls `exit(0)` there); a failed or timed-out read of
the final statistics on the control channel exits with code 1. -/
theorem client_exit_codes :
    (∀ (reads : List Nat) (len c : Nat),
      getmesTcpExit reads len = some c → c = 0) ∧
    (∀ n : Int, n ≤ 0 → statsReadExit n = some 1) := by
  constructor
  · intro reads
    induction reads with
    | nil =>
      intro len c h
      cases len <;> simp [getmesTcpExit] at h
    | cons r rest ih =>
      intro len c h
      cases len with
      | zero => simp [getmesTcpExit] at h
      | succ l =>
        simp only [getmesTcpExit] at h
        by_cases hr : r = 0
        · rw [if_pos hr] at h
          cases h
          rfl
        · rw [if_neg hr] at h
          exact ih _ _ h
  · intro n hn
    simp [statsReadExit, hn]

theorem client_exit_codes_witness :
    (0 : Nat) = 0 ∧ statsReadExit (-1) = some 1 :=
  ⟨client_exit_codes.1 [0] 512 0 (by decide),
   client_exit_codes.2 (-1) (by decide)⟩

/-- The trial-binding loop never returns a port below its starting
candidate. -/
theorem findPort_ge (env : PortEnv) :
    ∀ (fuel start p : Nat), findPort env fuel start = some p → start ≤ p := by
  intro fuel
  induction fuel with
  | zero => intro s p h; simp [findPort] at h
  | succ f ih =>
    intro s p h
    simp only [findPort] at h
    by_cases h1 : env.resolveOk s = true
    · rw [if_pos h1] at h
      by_cases h2 : env.socketOk s = true
      · rw [if_pos h2] at h
        by_cases h3 : env.bindOk s = true
        · rw [if_pos h3] at h
          cases h
          exact le_refl _
        · rw [if_neg h3] at h
          exact le_trans (Nat.le_succ s) (ih _ _ h)
      · rw [if_neg h2] at h
        exact le_trans (Nat.le_succ s) (ih _ _ h)
    · rw [if_neg h1] at h
      exact le_trans (Nat.le_succ s) (ih _ _ h)

/-- C8: whenever the server's UDP trial-binding loop terminates —
tolerating resolution, socket and bind failures on individual
candidates — the port it returns (and writes back in the Port reply)
is at least the configured base port, because the loop starts at the
base and only increments. -/
theorem udp_port_ge_base (env : PortEnv) (fuel base p : Nat)
    (h : findPort env fuel base = some p) : base ≤ p :=
  findPort_ge env fuel base p h

theorem udp_port_ge_base_witness : (31432 : Nat) ≤ 31434 :=
  udp_port_ge_base
    ⟨fun _ => true, fun _ => true, fun q => decide (31434 ≤ q)⟩
    10 31432 31434 (by decide)

/-- C10: the client's own UDP receive-timeout count never reaches the
reported statistics — parsing the server's final statistics message
overwrites the shared `numtout` with the server-sent figure, so the
parsed timeout count and the real-ticks adjustment depend only on the
server's value `st`, whatever the client accumulated. -/
theorem client_timeouts_discarded (clientTout : Int) (numrcv st cpuserv : Nat)
    (endt begt localhz : Int) :
    numtoutAfterStats clientTout (statsEncode numrcv st cpuserv) = (st : Int) ∧
    clientRealticks endt begt clientTout (statsEncode numrcv st cpuserv) localhz =
      realticksAdj endt begt (st : Int) localhz := by
  have h1 : numtoutAfterStats clientTout (statsEncode numrcv st cpuserv) =
      (st : Int) := by
    unfold numtoutAfterStats statsEncode
    rw [scanLLD_natToChars numrcv (' ' :: (natToChars st ++ ' ' :: natToChars cpuserv))
      (by
        intro c hc
        simp only [List.head?_cons, Option.some.injEq] at hc
        rw [← hc]; decide)]
    dsimp only
    rw [scanLLD_cons_space]
    rw [scanLLD_natToChars st (' ' :: natToChars cpuserv)
      (by
        intro c hc
        simp only [List.head?_cons, Option.some.injEq] at hc
        rw [← hc]; decide)]
  refine ⟨h1, ?_⟩
  unfold clientRealticks
  rw [h1]

end Attract
